import Mathlib

/-!
Verification of the EMDR client state store (src/src/pages/index.tsx).

The program is a single-page browser application.  Its persistence core
(lines 49-142 of index.tsx) keeps in-memory application state — animation
settings (gap, amplitude, speed, dotColor) and a list of session notes —
mirrored to the browser's localStorage under the key "emdr-app-state",
with a legacy fallback key "emdr-notes".

Embedding conventions:
* JavaScript numbers are modelled as rationals (ℚ); every numeric constant
  in the program (40, 50, 1, 5, 0.5, 10, 200, 500) is exact in ℚ.
* A JSON value resulting from JSON.parse is modelled by the inductive
  `Json`; JavaScript `undefined` is `Option Json`'s `none`.
* localStorage is a map from keys to `StoredItem`: a cell is absent,
  holds a string that fails JSON.parse (`malformed`), or holds a string
  whose parse is a given `Json` tree (`valid`).  JSON.stringify and
  JSON.parse are mutually inverse on the strings the program writes, so
  serialization is modelled at the level of `Json` trees.
* Setter calls (setGap …) become field updates of an explicit state
  record; the in-memory fields are dynamically typed (`Option Json`)
  exactly because `loadAppState` applies parsed fields with no shape
  validation.
* A thrown-and-caught exception is an `Except.error` handled inside the
  modelled function; an uncaught exception escapes as `Except.error` in
  the function's result type.
-/

namespace EMDR

/-- A JSON value, as produced by JSON.parse.  Objects coming out of
JSON.parse have distinct keys (later duplicates overwrite earlier ones
during parsing). -/
inductive Json where
  | null
  | bool (b : Bool)
  | num (q : ℚ)
  | str (s : String)
  | arr (elems : List Json)
  | obj (fields : List (String × Json))

/-- JavaScript member access `v.k` on a non-null value: a lookup on an
object, `undefined` (`none`) on any other non-null value.  Access on
`null` throws; callers handle that case before calling this. -/
def jsField : Json → String → Option Json
  | .obj fs, k => (fs.find? (fun p => p.1 == k)).map (fun p => p.2)
  | _, _ => none

def isNull : Json → Bool
  | .null => true
  | _ => false

/-- The `Note` type of index.tsx lines 32-37: id, title, content, date,
all strings. -/
structure Note where
  id : String
  title : String
  content : String
  date : String
deriving DecidableEq, Repr

/-- The draft note held in the form state (`newNote`, lines 63-67):
a `Note` without an id. -/
structure NewNote where
  title : String
  content : String
  date : String
deriving DecidableEq, Repr

/-- The `AppState` type of index.tsx lines 40-46: the typed aggregate
that `saveAppState` serializes. -/
structure AppState where
  gap : ℚ
  amplitude : ℚ
  speed : ℚ
  dotColor : String
  notes : List Note
deriving DecidableEq, Repr

/-- The in-memory React state cells that `loadAppState` writes through
setGap/setAmplitude/setSpeed/setDotColor/setNotes.  Fields are
dynamically typed (`Option Json`, `none` = `undefined`) because the load
path applies whatever JSON.parse produced, with no shape validation. -/
structure AppMem where
  gap : Option Json
  amplitude : Option Json
  speed : Option Json
  dotColor : Option Json
  notes : Option Json

/-- The useState initial values (lines 55-61): gap 40, amplitude 50,
speed 1, dotColor "#00ffaa", notes []. -/
def defaultAppMem : AppMem :=
  { gap := some (.num 40)
    amplitude := some (.num 50)
    speed := some (.num 1)
    dotColor := some (.str ("#00ffaa"))
    notes := some (.arr []) }

/-- One localStorage cell, as seen through getItem followed by
JSON.parse: absent (getItem returned null), present but not valid JSON
(JSON.parse throws), or present with JSON.parse result `j`. -/
inductive StoredItem where
  | absent
  | malformed
  | valid (j : Json)

/-- localStorage: a map from string keys to cells. -/
def Storage := String → StoredItem

def APP_STATE_KEY : String := "emdr-app-state"
def NOTES_KEY : String := "emdr-notes"

/-- localStorage.setItem: replace the cell under one key. -/
def setItem (st : Storage) (k : String) (r : StoredItem) : Storage :=
  fun k2 => if k2 = k then r else st k2

/-- localStorage.setItem as the runtime performs it: setItem throws
(e.g. QuotaExceededError) when the write cannot be performed, modelled
by the `writeOk` flag; on failure the storage is unchanged. -/
def setItemExc (st : Storage) (k : String) (r : StoredItem) (writeOk : Bool) :
    Except Unit Storage :=
  if writeOk then .ok (setItem st k r) else .error ()

/-- JSON.stringify of a `Note`: the object tree the serializer emits. -/
def encodeNote (n : Note) : Json :=
  .obj [("id", .str n.id), ("title", .str n.title),
        ("content", .str n.content), ("date", .str n.date)]

/-- JSON.stringify of the `appState` object built in `saveAppState`
(lines 73-79): fields in declaration order gap, amplitude, speed,
dotColor, notes. -/
def encodeAppState (s : AppState) : Json :=
  .obj [("gap", .num s.gap), ("amplitude", .num s.amplitude),
        ("speed", .num s.speed), ("dotColor", .str s.dotColor),
        ("notes", .arr (s.notes.map encodeNote))]

/-- The function `saveAppState` (lines 72-86): build the AppState aggregate from the
current in-memory values, serialize it and write it under
APP_STATE_KEY inside try/catch; a thrown error is caught and logged
(console.error), the in-memory state is untouched either way.  Returns
the (unchanged) in-memory aggregate and the resulting storage. -/
def saveAppState (mem : AppState) (st : Storage) (writeOk : Bool) :
    AppState × Storage :=
  match setItemExc st APP_STATE_KEY (.valid (encodeAppState mem)) writeOk with
  | .ok st2 => (mem, st2)
  | .error _ => (mem, st)

/-- The in-memory cells after the five setter calls of `loadAppState`
(lines 96-100) applied to a parsed non-null value `j`: each field is the
raw member access on `j`, with no validation or clamping. -/
def memFromJson (j : Json) : AppMem :=
  { gap := jsField j ("gap")
    amplitude := jsField j ("amplitude")
    speed := jsField j ("speed")
    dotColor := jsField j ("dotColor")
    notes := jsField j ("notes") }

/-- The function `loadAppState` (lines 89-109): getItem under APP_STATE_KEY; if the
cell is absent (or the catch fires: unparseable string, or member access
on a parsed `null` throwing TypeError) return false with the state
unchanged; otherwise apply the five member accesses to the state cells
and return true. -/
def loadAppState (st : Storage) (m : AppMem) : Bool × AppMem :=
  match st APP_STATE_KEY with
  | .absent => (false, m)
  | .malformed => (false, m)
  | .valid j => if isNull j then (false, m) else (true, memFromJson j)

/-- C1: Round-trip — for every AppState, `saveAppState` followed by
`loadAppState` on the resulting persisted record reports success and
restores each of the five fields exactly: the in-memory cells hold
precisely the encodings of the saved gap, amplitude, speed, dotColor and
notes. -/
theorem save_load_round_trip (s : AppState) (st : Storage) (m : AppMem) :
    (loadAppState (saveAppState s st true).2 m).1 = true
    ∧ (loadAppState (saveAppState s st true).2 m).2.gap = some (.num s.gap)
    ∧ (loadAppState (saveAppState s st true).2 m).2.amplitude = some (.num s.amplitude)
    ∧ (loadAppState (saveAppState s st true).2 m).2.speed = some (.num s.speed)
    ∧ (loadAppState (saveAppState s st true).2 m).2.dotColor = some (.str s.dotColor)
    ∧ (loadAppState (saveAppState s st true).2 m).2.notes
        = some (.arr (s.notes.map encodeNote)) := by
  refine ⟨?_, ?_, ?_, ?_, ?_, ?_⟩ <;>
    simp [saveAppState, setItemExc, setItem, loadAppState, encodeAppState,
      memFromJson, jsField, isNull, List.find?]

/-- The stepper `incrementValue` (lines 165-173): the stepper mutation
`setter(Math.min(max, Math.max(min, value + increment)))`.  The value
the setter receives, as a function of the current value, the increment
and the bounds. -/
def incrementValue (value increment mn mx : ℚ) : ℚ :=
  min mx (max mn (value + increment))

/-- JavaScript `String.prototype.trim`: strip leading and trailing
whitespace characters. -/
def jsTrim (s : String) : String :=
  ⟨((s.data.dropWhile Char.isWhitespace).reverse.dropWhile
      Char.isWhitespace).reverse⟩

/-- The handler `handleAddNote` (lines 175-202) acting on the three state cells it
touches — notes, newNote, showNoteForm.  `now` models `Date.now()` (a
millisecond timestamp, stringified with `toString`), `today` the string
`new Date().toISOString().split("T")[0]` used to reset the form.  An
empty-after-trim title is a no-op on all three cells (the handler only
refocuses the input); otherwise the note is prepended with id
`now.toString()`, the form is reset and hidden. -/
def handleAddNote (now : Nat) (today : String) (nn : NewNote)
    (notes : List Note) (showNoteForm : Bool) :
    List Note × NewNote × Bool :=
  if jsTrim nn.title = "" then (notes, nn, showNoteForm)
  else (⟨toString now, nn.title, nn.content, nn.date⟩ :: notes,
        ⟨"", "", today⟩, false)

/-- The handler `handleDeleteNote` (lines 216-218):
`setNotes((prev) => prev.filter((note) => note.id !== id))`. -/
def handleDeleteNote (id : String) (notes : List Note) : List Note :=
  notes.filter (fun note => note.id != id)

/-- C3 counterexample: the claim asserts the freshly assigned id is
unique among all notes for EVERY prior notes sequence, but the id is
`Date.now().toString()` with no collision check: when a prior note
(e.g. one restored from storage) already carries the current timestamp
string as its id, the resulting sequence has a duplicated id. -/
theorem addNote_fresh_id_cex :
    ¬ (((handleAddNote 0 "2025-01-01" ⟨"Session 1", "c", "2025-01-01"⟩
          [⟨"0", "old", "x", "2024-01-01"⟩] true).1.map Note.id).Nodup) := by
  decide

/-- C3 (amended): addNote with a non-whitespace title produces a
sequence of length old+1, whose head is the new note carrying the
stringified creation timestamp as id, with the prior notes following
unchanged; and provided no prior note already carries that timestamp
string as its id, the new note is the only note in the result with that
id (the id is unique among all notes). -/
theorem addNote_spec (now : Nat) (today : String) (nn : NewNote)
    (notes : List Note) (sf : Bool) (h : jsTrim nn.title ≠ "") :
    (handleAddNote now today nn notes sf).1.length = notes.length + 1
    ∧ (handleAddNote now today nn notes sf).1.head?
        = some ⟨toString now, nn.title, nn.content, nn.date⟩
    ∧ (handleAddNote now today nn notes sf).1.tail = notes
    ∧ ((∀ n ∈ notes, n.id ≠ toString now) →
        ∀ m_ ∈ (handleAddNote now today nn notes sf).1,
          m_.id = toString now →
            m_ = ⟨toString now, nn.title, nn.content, nn.date⟩) := by
  refine ⟨?_, ?_, ?_, ?_⟩ <;> simp only [handleAddNote, if_neg h]
  · simp
  · simp
  · simp
  · intro hfresh m_ hm_ hid
    rcases List.mem_cons.mp hm_ with h1 | h1
    · exact h1
    · exact absurd hid (hfresh m_ h1)

/-- Witness for `addNote_spec` at a concrete input. -/
theorem addNote_spec_witness :
    (handleAddNote 17 "2025-02-02" ⟨"Session 1", "calm", "2025-02-01"⟩
        [⟨"3", "old", "x", "2024-01-01"⟩] true).1.length = 2
    ∧ (handleAddNote 17 "2025-02-02" ⟨"Session 1", "calm", "2025-02-01"⟩
        [⟨"3", "old", "x", "2024-01-01"⟩] true).1.head?
      = some ⟨"17", "Session 1", "calm", "2025-02-01"⟩
    ∧ (handleAddNote 17 "2025-02-02" ⟨"Session 1", "calm", "2025-02-01"⟩
        [⟨"3", "old", "x", "2024-01-01"⟩] true).1.tail
      = [⟨"3", "old", "x", "2024-01-01"⟩] :=
  have h := addNote_spec 17 "2025-02-02" ⟨"Session 1", "calm", "2025-02-01"⟩
    [⟨"3", "old", "x", "2024-01-01"⟩] true (by decide)
  ⟨h.1, h.2.1, h.2.2.1⟩

/-- C4: addNote with an empty or whitespace-only title (a title whose
trim is the empty string) is rejected as a no-op: the notes sequence is
unchanged (and so are the form cells). -/
theorem addNote_empty_noop (now : Nat) (today : String) (nn : NewNote)
    (notes : List Note) (sf : Bool) (h : jsTrim nn.title = "") :
    handleAddNote now today nn notes sf = (notes, nn, sf) := by
  simp [handleAddNote, h]

/-- Witness for `addNote_empty_noop`: a whitespace-only title. -/
theorem addNote_empty_noop_witness :
    handleAddNote 5 "2025-02-02" ⟨"  ", "body", "2025-02-01"⟩
        [⟨"3", "old", "x", "2024-01-01"⟩] true
      = ([⟨"3", "old", "x", "2024-01-01"⟩], ⟨"  ", "body", "2025-02-01"⟩, true) :=
  addNote_empty_noop 5 "2025-02-02" ⟨"  ", "body", "2025-02-01"⟩
    [⟨"3", "old", "x", "2024-01-01"⟩] true (by decide)

/-- C5: deleteNote removes exactly the note with the matching id — when
the notes sequence splits as l1 ++ [n] ++ l2 with n the only note
carrying the id, the result is l1 ++ l2, all other notes kept in their
original relative order; and when no note carries the id, the call is a
no-op. -/
theorem deleteNote_spec (id : String) (notes l1 l2 : List Note) (n : Note) :
    ((∀ m_ ∈ notes, m_.id ≠ id) → handleDeleteNote id notes = notes)
    ∧ (notes = l1 ++ n :: l2 → n.id = id →
        (∀ m_ ∈ l1, m_.id ≠ id) → (∀ m_ ∈ l2, m_.id ≠ id) →
        handleDeleteNote id notes = l1 ++ l2) := by
  constructor
  · intro hall
    simp only [handleDeleteNote]
    rw [List.filter_eq_self]
    intro a ha
    simpa using hall a ha
  · intro hsplit hn h1 h2
    subst hsplit
    simp only [handleDeleteNote, List.filter_append, List.filter_cons]
    rw [if_neg (by simp [hn])]
    rw [List.filter_eq_self.mpr (fun a ha => by simpa using h1 a ha),
        List.filter_eq_self.mpr (fun a ha => by simpa using h2 a ha)]

/-- Witness for `deleteNote_spec`: both conjuncts applied at concrete
inputs. -/
theorem deleteNote_spec_witness :
    handleDeleteNote ("2")
        [⟨"1", "a", "", ""⟩, ⟨"2", "b", "", ""⟩, ⟨"3", "c", "", ""⟩]
      = [⟨"1", "a", "", ""⟩, ⟨"3", "c", "", ""⟩]
    ∧ handleDeleteNote ("9")
        [⟨"1", "a", "", ""⟩, ⟨"2", "b", "", ""⟩, ⟨"3", "c", "", ""⟩]
      = [⟨"1", "a", "", ""⟩, ⟨"2", "b", "", ""⟩, ⟨"3", "c", "", ""⟩] :=
  ⟨(deleteNote_spec ("2")
      [⟨"1", "a", "", ""⟩, ⟨"2", "b", "", ""⟩, ⟨"3", "c", "", ""⟩]
      [⟨"1", "a", "", ""⟩] [⟨"3", "c", "", ""⟩] ⟨"2", "b", "", ""⟩).2
      rfl rfl (by decide) (by decide),
   (deleteNote_spec ("9")
      [⟨"1", "a", "", ""⟩, ⟨"2", "b", "", ""⟩, ⟨"3", "c", "", ""⟩]
      [] [] ⟨"2", "b", "", ""⟩).1 (by decide)⟩

/-- C7: every stepper mutation is clamped into the documented range,
regardless of the current value and the requested delta.  The three call
sites pass (min, max) = (10, 200) for gap, (10, 50) for amplitude and
(1/2, 10) for speed (the source literal 0.5 is 1/2 exactly). -/
theorem incrementValue_bounds (value increment : ℚ) :
    (10 ≤ incrementValue value increment 10 200
      ∧ incrementValue value increment 10 200 ≤ 200)
    ∧ (10 ≤ incrementValue value increment 10 50
      ∧ incrementValue value increment 10 50 ≤ 50)
    ∧ (1/2 ≤ incrementValue value increment (1/2) 10
      ∧ incrementValue value increment (1/2) 10 ≤ 10) := by
  refine ⟨⟨?_, ?_⟩, ⟨?_, ?_⟩, ⟨?_, ?_⟩⟩ <;>
    simp only [incrementValue] <;>
    first
      | exact min_le_left _ _
      | exact le_min (by norm_num) (le_max_left _ _)

/-- A localStorage holding a single cell `r` under APP_STATE_KEY and
nothing else; concrete-input constructor for the theorems below. -/
def storageWith (r : StoredItem) : Storage :=
  fun k => if k = APP_STATE_KEY then r else .absent

/-- C2 counterexample: the persisted string "[]" is present and parses
as valid JSON but does not match the AppState shape; the claim says
load must report failure and leave the state at its defaults, yet
`loadAppState` reports success and overwrites the state (gap becomes
`undefined`, not its default 40). -/
theorem load_shape_cex :
    (loadAppState (storageWith (.valid (.arr []))) defaultAppMem).1 = true
    ∧ (loadAppState (storageWith (.valid (.arr []))) defaultAppMem).2.gap = none
    ∧ defaultAppMem.gap = some (.num 40) :=
  ⟨rfl, rfl, rfl⟩

/-- C2 (amended): load reads the record under the primary key; if it is
present and parses as valid JSON other than `null`, it applies the five
member accesses to in-memory state — with no shape validation, missing
fields becoming `undefined` — and reports success; if the record is
absent, is not valid JSON, or parses to `null` (member access throws,
caught), it reports failure and leaves the in-memory state unchanged
(hence at its defaults on startup). -/
theorem loadAppState_spec (st : Storage) (m : AppMem) :
    ((st APP_STATE_KEY = .absent ∨ st APP_STATE_KEY = .malformed
        ∨ st APP_STATE_KEY = .valid .null) → loadAppState st m = (false, m))
    ∧ (∀ j, st APP_STATE_KEY = .valid j → isNull j = false →
        loadAppState st m = (true, memFromJson j)) := by
  constructor
  · intro h
    rcases h with h | h | h <;> simp [loadAppState, h, isNull]
  · intro j hj hnull
    simp [loadAppState, hj, hnull]

/-- Witness for `loadAppState_spec`: an absent record reports failure
and keeps the defaults; a present well-formed record reports success
and applies its fields. -/
theorem loadAppState_spec_witness :
    loadAppState (fun _ => .absent) defaultAppMem = (false, defaultAppMem)
    ∧ loadAppState (storageWith (.valid (.obj [("gap", .num 7)]))) defaultAppMem
      = (true, memFromJson (.obj [("gap", .num 7)])) :=
  ⟨(loadAppState_spec (fun _ => .absent) defaultAppMem).1 (Or.inl rfl),
   (loadAppState_spec (storageWith (.valid (.obj [("gap", .num 7)])))
      defaultAppMem).2 (.obj [("gap", .num 7)]) rfl rfl⟩

/-- The initial-load effect (lines 121-132): try `loadAppState`; when it
reports failure, read the legacy NOTES_KEY cell and, when present,
apply `JSON.parse(savedNotes)` to the notes cell — this parse is NOT
wrapped in try/catch, so a malformed legacy record throws out of the
effect (`Except.error`). -/
def initialLoad (st : Storage) (m : AppMem) : Except Unit AppMem :=
  match loadAppState st m with
  | (true, m2) => .ok m2
  | (false, m2) =>
    match st NOTES_KEY with
    | .absent => .ok m2
    | .malformed => .error ()
    | .valid j => .ok { m2 with notes := some j }

/-- C6: when no AppState record exists under the primary key and a
legacy notes record exists under NOTES_KEY, the startup load yields the
default settings (gap, amplitude, speed, dotColor unchanged) together
with the legacy notes adopted as the notes list. -/
theorem legacy_fallback (ns : List Note) :
    initialLoad
      (fun k => if k = NOTES_KEY then .valid (.arr (ns.map encodeNote)) else .absent)
      defaultAppMem
    = .ok { defaultAppMem with notes := some (.arr (ns.map encodeNote)) } :=
  rfl

/-- C8: save serializes the in-memory AppState and writes it under the
primary key (leaving the legacy key alone); a write failure is caught
inside `saveAppState` (the `Except.error` of the raw setItem never
reaches the caller — `saveAppState`'s result type has no error case),
the storage is then unchanged, and the in-memory state is unchanged by
the save in both cases. -/
theorem save_error_handling (mem : AppState) (st : Storage) :
    (saveAppState mem st true).1 = mem
    ∧ (saveAppState mem st true).2 APP_STATE_KEY = .valid (encodeAppState mem)
    ∧ (saveAppState mem st true).2 NOTES_KEY = st NOTES_KEY
    ∧ (saveAppState mem st false).1 = mem
    ∧ (saveAppState mem st false).2 = st :=
  ⟨rfl, rfl, rfl, rfl, rfl⟩

/-- C10 (implicit): load applies persisted numeric settings as-is, with
no clamping and no shape validation — any gap value whatsoever is
adopted (first conjunct, for every rational q); a record with gap,
amplitude and speed all 1000 is adopted verbatim although 1000 lies
outside [10,200], [10,50] and [1/2,10]; and a gap that is not a number
at all is adopted too. -/
theorem load_no_clamping (q : ℚ) (m : AppMem) :
    (loadAppState (storageWith (.valid (.obj [("gap", .num q)]))) m).2.gap
      = some (.num q)
    ∧ (loadAppState (storageWith (.valid (.obj
          [("gap", .num 1000), ("amplitude", .num 1000), ("speed", .num 1000)])))
        defaultAppMem)
      = (true, { gap := some (.num 1000), amplitude := some (.num 1000),
                 speed := some (.num 1000), dotColor := none, notes := none })
    ∧ ¬ ((1000 : ℚ) ≤ 200) ∧ ¬ ((1000 : ℚ) ≤ 50) ∧ ¬ ((1000 : ℚ) ≤ 10)
    ∧ (loadAppState (storageWith (.valid (.obj [("gap", .str ("wide"))])))
        defaultAppMem).2.gap = some (.str ("wide")) :=
  ⟨rfl, rfl, by norm_num, by norm_num, by norm_num, rfl⟩

/-- The debounced-save effect (lines 135-142), as a timed state
machine.  The effect body runs on every mutation of a dependency: the
cleanup clears any pending timer and a new 500ms timer is scheduled;
when a pending timer's deadline passes with no further mutation, it
fires and performs one persisted write.  `pending` is the deadline of
the scheduled timer, `writes` counts fired saves. -/
structure DebounceState where
  pending : Option ℚ
  writes : Nat

/-- The debounce window of the setTimeout call: 500ms. -/
def debounceDelay : ℚ := 500

/-- Event-loop bookkeeping: a pending timer whose deadline is at or
before the current instant has already fired (performing its write)
before the current mutation's handler runs. -/
def fireIfDue (s : DebounceState) (now : ℚ) : DebounceState :=
  match s.pending with
  | some d => if d ≤ now then { pending := none, writes := s.writes + 1 } else s
  | none => s

/-- One mutation at instant `now`: any timer already due has fired;
the effect cleanup then cancels whatever timer is still pending and
schedules a fresh one at `now + 500` (reset, not accumulated). -/
def mutate (s : DebounceState) (now : ℚ) : DebounceState :=
  { pending := some (now + debounceDelay), writes := (fireIfDue s now).writes }

/-- Run a trace of mutation instants. -/
def runMutations (s : DebounceState) : List ℚ → DebounceState
  | [] => s
  | t :: ts => runMutations (mutate s t) ts

/-- Writes once the trace ends and the system goes quiet: a still
pending timer fires. -/
def flushWrites (s : DebounceState) : Nat :=
  match s.pending with
  | some _ => s.writes + 1
  | none => s.writes

/-- No timer pending, nothing written yet. -/
def initialDebounce : DebounceState := { pending := none, writes := 0 }

/-- Helper: along a trace whose consecutive gaps stay under the
debounce window, the pending timer is always reset before it can fire:
no write happens during the trace and a timer stays pending. -/
theorem runMutations_quiet (ts : List ℚ) :
    ∀ (t : ℚ) (w : Nat),
      List.Chain (fun a b => b - a < debounceDelay) t ts →
      (runMutations ⟨some (t + debounceDelay), w⟩ ts).writes = w
      ∧ (runMutations ⟨some (t + debounceDelay), w⟩ ts).pending.isSome = true := by
  induction ts with
  | nil => exact fun t w _ => ⟨rfl, rfl⟩
  | cons u ts ih =>
    intro t w h
    rw [List.chain_cons] at h
    obtain ⟨hgap, hchain⟩ := h
    have hnot : ¬ (t + debounceDelay ≤ u) := by
      intro hle
      have : debounceDelay ≤ u - t := by linarith
      exact absurd hgap (not_lt.mpr this)
    have hm : mutate ⟨some (t + debounceDelay), w⟩ u
        = ⟨some (u + debounceDelay), w⟩ := by
      simp [mutate, fireIfDue, hnot]
    simp only [runMutations]
    rw [hm]
    exact ih u w hchain

/-- C9: a nonempty burst of mutations whose consecutive instants each
lie less than 500ms apart produces exactly one persisted write: every
mutation cancels the pending timer and schedules a fresh 500ms one, so
only the final timer survives to fire. -/
theorem debounce_single_write (t : ℚ) (ts : List ℚ)
    (h : List.Chain (fun a b => b - a < debounceDelay) t ts) :
    flushWrites (runMutations initialDebounce (t :: ts)) = 1 := by
  obtain ⟨hw, hp⟩ := runMutations_quiet ts t 0 h
  show flushWrites (runMutations (mutate initialDebounce t) ts) = 1
  have h0 : mutate initialDebounce t = ⟨some (t + debounceDelay), 0⟩ := rfl
  rw [h0]
  cases hpend : (runMutations ⟨some (t + debounceDelay), 0⟩ ts).pending with
  | none => rw [hpend] at hp; simp at hp
  | some d => simp [flushWrites, hpend, hw]

/-- Witness for `debounce_single_write`: three mutations at 0ms, 100ms
and 200ms produce exactly one write. -/
theorem debounce_single_write_witness :
    flushWrites (runMutations initialDebounce [0, 100, 200]) = 1 :=
  debounce_single_write 0 [100, 200]
    (by refine List.Chain.cons ?_ (List.Chain.cons ?_ List.Chain.nil) <;>
        norm_num [debounceDelay])

end EMDR
